import Mathlib

/-!
# Verification of the Aureon financial core

Shallow embedding of the Aureon repository's treasury reservation engine,
journal/trial-balance engine, loan lifecycle, amortization schedule and
payment lifecycle, with theorems settling the specification claims.

Monetary amounts are embedded as exact rationals (the source stores floats /
fixed-point decimals); statuses are embedded as the literal strings used by
the source; timestamps (`datetime.utcnow()`) are supplied by the caller as
`Nat` parameters; generated UUIDs are supplied by the caller as `String`
parameters.
-/

/-- Error kinds raised by the providers (`backend.core.error`): `NotFoundError`
carries an entity name and identifier, `ValidationError` a message, and
`CalculationError` a message.  Concrete error classes are opaque labels here;
only which kind is raised matters for the claims. -/
inductive DomErr where
  | notFound (entity : String) (ident : String)
  | validationError (msg : String)
  | calculationError (msg : String)
  | currencyMismatch (msg : String)
deriving DecidableEq, Repr

/-! ## Treasury: cash positions and fund reservations

From `database/model/treasury/cash_position.py`,
`database/model/treasury/fund_reservation.py` and
`Middleware/DataProvider/treasuryProvider/cashPositionProvider.py`. -/

/-- `CashPosition` row: provider account with total / available / reserved
balances (floats in the source, rationals here). -/
structure CashPosition where
  provider : String
  accountId : String
  currencyCode : String
  totalBalance : ℚ
  availableBalance : ℚ
  reservedBalance : ℚ
  lastSyncedAt : Option Nat
  note : Option String
deriving DecidableEq, Repr

/-- `FundReservation` row: a hold on a cash position.  `status` is one of the
strings `"ACTIVE"`, `"RELEASED"`, `"CONFIRMED"` (stored as `str` in the
source); the model declares `amount` with `gt=0`. -/
structure FundReservation where
  reservationId : String
  provider : String
  accountId : String
  amount : ℚ
  currencyCode : String
  transactionRef : String
  status : String
  releasedAt : Option Nat
deriving DecidableEq, Repr

/-- The treasury store visible to `CashPositionProvider`: the persisted cash
positions and fund reservations. -/
structure TreasuryState where
  positions : List CashPosition
  reservations : List FundReservation
deriving DecidableEq, Repr

/-- Input schema `ReserveFundsCreate` (`schemas/treasurySchema.py`); its
`amount` field is validated `gt=0` by pydantic before reaching the provider. -/
structure ReserveFundsCreate where
  provider : String
  accountId : String
  amount : ℚ
  currencyCode : String
  transactionRef : String
deriving DecidableEq, Repr

/-- Row lookup behind `CashPositionProvider.fetch_balance`: first stored
position with the given provider and account id. -/
def findPos (ps : List CashPosition) (provider accountId : String) :
    Option CashPosition :=
  ps.find? (fun p => p.provider == provider && p.accountId == accountId)

/-- Update (in place) the first stored position matching the key, mirroring a
mutation of the row returned by `fetch_balance` followed by a commit. -/
def setPos (ps : List CashPosition) (provider accountId : String)
    (f : CashPosition → CashPosition) : List CashPosition :=
  match ps with
  | [] => []
  | p :: rest =>
    if p.provider == provider && p.accountId == accountId then f p :: rest
    else p :: setPos rest provider accountId f

/-- Row lookup behind `session.get(FundReservation, reservation_id)`. -/
def findRes (rs : List FundReservation) (rid : String) :
    Option FundReservation :=
  rs.find? (fun r => r.reservationId == rid)

/-- Update (in place) the first stored reservation with the given id. -/
def setRes (rs : List FundReservation) (rid : String)
    (f : FundReservation → FundReservation) : List FundReservation :=
  match rs with
  | [] => []
  | r :: rest =>
    if r.reservationId == rid then f r :: rest
    else r :: setRes rest rid f

/-- `CashPositionProvider.reserve_funds`: fetches the position, raises
`ValidationError` when `available_balance < amount`, otherwise moves `amount`
from available to reserved and inserts an `"ACTIVE"` reservation in the same
commit.  `rid` stands for the generated `uuid4` reservation id.  The returned
state is the store after the call (unchanged whenever an error is raised,
since in the source every raise precedes the first mutation). -/
def reserveFunds (s : TreasuryState) (reserveIn : ReserveFundsCreate)
    (rid : String) : Except DomErr FundReservation × TreasuryState :=
  match findPos s.positions reserveIn.provider reserveIn.accountId with
  | none =>
    (.error (.notFound "Cash Position"
      (reserveIn.provider ++ ":" ++ reserveIn.accountId)), s)
  | some position =>
    if position.availableBalance < reserveIn.amount then
      (.error (.validationError "Insufficient funds"), s)
    else
      let reservation : FundReservation :=
        { reservationId := rid
          provider := reserveIn.provider
          accountId := reserveIn.accountId
          amount := reserveIn.amount
          currencyCode := position.currencyCode
          transactionRef := reserveIn.transactionRef
          status := "ACTIVE"
          releasedAt := none }
      (.ok reservation,
        { positions :=
            setPos s.positions reserveIn.provider reserveIn.accountId
              (fun p =>
                { p with
                  reservedBalance := p.reservedBalance + reserveIn.amount
                  availableBalance := p.availableBalance - reserveIn.amount })
          reservations := s.reservations ++ [reservation] })

/-- `CashPositionProvider.release_reservation`: requires the reservation to
exist and be `"ACTIVE"`; moves its amount from reserved back to available,
marks the reservation `"RELEASED"` and stamps `released_at := now`. -/
def releaseReservation (s : TreasuryState) (rid : String) (now : Nat) :
    Except DomErr FundReservation × TreasuryState :=
  match findRes s.reservations rid with
  | none => (.error (.notFound "FundReservation" rid), s)
  | some reservation =>
    if reservation.status ≠ "ACTIVE" then
      (.error (.validationError
        ("Reservation " ++ rid ++ " is not active and cannot be released")), s)
    else
      match findPos s.positions reservation.provider reservation.accountId with
      | none =>
        (.error (.notFound "Cash Position"
          (reservation.provider ++ ":" ++ reservation.accountId)), s)
      | some _ =>
        let updated :=
          { reservation with status := "RELEASED", releasedAt := some now }
        (.ok updated,
          { positions :=
              setPos s.positions reservation.provider reservation.accountId
                (fun p =>
                  { p with
                    reservedBalance := p.reservedBalance - reservation.amount
                    availableBalance :=
                      p.availableBalance + reservation.amount })
            reservations :=
              setRes s.reservations rid
                (fun r =>
                  { r with status := "RELEASED", releasedAt := some now }) })

/-- `CashPositionProvider.confirm_reservation`: requires the reservation to
exist and be `"ACTIVE"`; permanently deducts its amount from both reserved and
total balance, marks the reservation `"CONFIRMED"` (the source also stamps
`released_at` here, line 324). -/
def confirmReservation (s : TreasuryState) (rid : String) (now : Nat) :
    Except DomErr FundReservation × TreasuryState :=
  match findRes s.reservations rid with
  | none => (.error (.notFound "FundReservation" rid), s)
  | some reservation =>
    if reservation.status ≠ "ACTIVE" then
      (.error (.validationError
        ("Reservation " ++ rid ++ " is not active and cannot be confirmed")), s)
    else
      match findPos s.positions reservation.provider reservation.accountId with
      | none =>
        (.error (.notFound "Cash Position"
          (reservation.provider ++ ":" ++ reservation.accountId)), s)
      | some _ =>
        let updated :=
          { reservation with status := "CONFIRMED", releasedAt := some now }
        (.ok updated,
          { positions :=
              setPos s.positions reservation.provider reservation.accountId
                (fun p =>
                  { p with
                    reservedBalance := p.reservedBalance - reservation.amount
                    totalBalance := p.totalBalance - reservation.amount })
            reservations :=
              setRes s.reservations rid
                (fun r =>
                  { r with status := "CONFIRMED", releasedAt := some now }) })

/-- `CashPositionProvider.update_balance`: overwrites the three stored
balances of an existing position with the caller-supplied values and stamps
`last_synced_at := now`. -/
def updateBalance (s : TreasuryState) (provider accountId : String)
    (totalBalance availableBalance reservedBalance : ℚ) (now : Nat) :
    Except DomErr CashPosition × TreasuryState :=
  match findPos s.positions provider accountId with
  | none =>
    (.error (.notFound "Cash Position" (provider ++ ":" ++ accountId)), s)
  | some position =>
    let updated :=
      { position with
        totalBalance := totalBalance
        availableBalance := availableBalance
        reservedBalance := reservedBalance
        lastSyncedAt := some now }
    (.ok updated,
      { s with
        positions :=
          setPos s.positions provider accountId
            (fun p =>
              { p with
                totalBalance := totalBalance
                availableBalance := availableBalance
                reservedBalance := reservedBalance
                lastSyncedAt := some now }) })

/-- `CashPositionProvider.create_cash_position`: fails when a position with
the same provider and account id already exists, otherwise inserts a new
position with the caller-supplied balances (defaults `0.0` in the source). -/
def createCashPosition (s : TreasuryState) (provider accountId currencyCode : String)
    (totalBalance availableBalance reservedBalance : ℚ) (now : Nat)
    (note : Option String) : Except DomErr CashPosition × TreasuryState :=
  match findPos s.positions provider accountId with
  | some _ => (.error (.validationError "Cash position already exists"), s)
  | none =>
    let position : CashPosition :=
      { provider := provider
        accountId := accountId
        currencyCode := currencyCode
        totalBalance := totalBalance
        availableBalance := availableBalance
        reservedBalance := reservedBalance
        lastSyncedAt := some now
        note := note }
    (.ok position, { s with positions := s.positions ++ [position] })

/-! ## List-store lemmas -/

/-- Key of a cash-position row, for stating that balance updates do not move a
row to a different provider account. -/
def posKeyEq (p : CashPosition) (provider accountId : String) : Bool :=
  p.provider == provider && p.accountId == accountId

theorem findPos_nil (provider accountId : String) :
    findPos [] provider accountId = none := rfl

theorem findPos_cons (p : CashPosition) (rest : List CashPosition)
    (provider accountId : String) :
    findPos (p :: rest) provider accountId =
      if posKeyEq p provider accountId then some p
      else findPos rest provider accountId := by
  simp only [findPos, List.find?, posKeyEq]
  cases h : (p.provider == provider && p.accountId == accountId) <;> simp [h]

theorem findRes_nil (rid : String) : findRes [] rid = none := rfl

theorem findRes_cons (r : FundReservation) (rest : List FundReservation)
    (rid : String) :
    findRes (r :: rest) rid =
      if r.reservationId == rid then some r else findRes rest rid := by
  simp only [findRes, List.find?]
  cases h : (r.reservationId == rid) <;> simp [h]

theorem setPos_nil (provider accountId : String) (f : CashPosition → CashPosition) :
    setPos [] provider accountId f = [] := rfl

theorem setPos_cons (p : CashPosition) (rest : List CashPosition)
    (provider accountId : String) (f : CashPosition → CashPosition) :
    setPos (p :: rest) provider accountId f =
      if posKeyEq p provider accountId then f p :: rest
      else p :: setPos rest provider accountId f := rfl

/-- Looking up the key just updated returns the updated row, provided the
update does not change the row's key. -/
theorem findPos_setPos (ps : List CashPosition) (provider accountId : String)
    (f : CashPosition → CashPosition)
    (hf : ∀ q, (f q).provider = q.provider ∧ (f q).accountId = q.accountId) :
    findPos (setPos ps provider accountId f) provider accountId =
      (findPos ps provider accountId).map f := by
  induction ps with
  | nil => rfl
  | cons p rest ih =>
    rw [setPos_cons]
    by_cases h : posKeyEq p provider accountId
    · have hfp : posKeyEq (f p) provider accountId := by
        unfold posKeyEq at *
        rw [(hf p).1, (hf p).2]
        exact h
      rw [if_pos h, findPos_cons, if_pos hfp, findPos_cons, if_pos h]
      rfl
    · rw [if_neg h, findPos_cons, if_neg h, findPos_cons, if_neg h, ih]

/-- Every row of the updated store is either an original row or the image
under `f` of the row the provider fetched. -/
theorem mem_setPos (ps : List CashPosition) (provider accountId : String)
    (f : CashPosition → CashPosition) (q : CashPosition)
    (hq : q ∈ setPos ps provider accountId f) :
    q ∈ ps ∨ ∃ p, findPos ps provider accountId = some p ∧ q = f p := by
  induction ps with
  | nil => simp [setPos] at hq
  | cons p rest ih =>
    rw [setPos_cons] at hq
    by_cases h : posKeyEq p provider accountId
    · rw [if_pos h] at hq
      rcases List.mem_cons.mp hq with hq | hq
      · exact Or.inr ⟨p, by rw [findPos_cons, if_pos h], hq⟩
      · exact Or.inl (List.mem_cons_of_mem _ hq)
    · rw [if_neg h] at hq
      rcases List.mem_cons.mp hq with hq | hq
      · exact Or.inl (hq ▸ List.mem_cons_self _ _)
      · rcases ih hq with hmem | ⟨p', hp', hfp'⟩
        · exact Or.inl (List.mem_cons_of_mem _ hmem)
        · exact Or.inr ⟨p', by rw [findPos_cons, if_neg h]; exact hp', hfp'⟩

/-- Updating twice at the same key composes the updates, provided the first
update preserves the key. -/
theorem setPos_setPos (ps : List CashPosition) (provider accountId : String)
    (f g : CashPosition → CashPosition)
    (hf : ∀ q, (f q).provider = q.provider ∧ (f q).accountId = q.accountId) :
    setPos (setPos ps provider accountId f) provider accountId g =
      setPos ps provider accountId (fun q => g (f q)) := by
  induction ps with
  | nil => rfl
  | cons p rest ih =>
    rw [setPos_cons]
    by_cases h : posKeyEq p provider accountId
    · have hfp : posKeyEq (f p) provider accountId := by
        unfold posKeyEq at *
        rw [(hf p).1, (hf p).2]
        exact h
      rw [if_pos h, setPos_cons, if_pos hfp, setPos_cons, if_pos h]
    · rw [if_neg h, setPos_cons, if_neg h, setPos_cons, if_neg h, ih]

/-- An update that fixes every row leaves the store unchanged. -/
theorem setPos_id (ps : List CashPosition) (provider accountId : String)
    (f : CashPosition → CashPosition) (hf : ∀ q, f q = q) :
    setPos ps provider accountId f = ps := by
  induction ps with
  | nil => rfl
  | cons p rest ih =>
    rw [setPos_cons]
    by_cases h : posKeyEq p provider accountId
    · rw [if_pos h, hf]
    · rw [if_neg h, ih]

theorem findRes_append_fresh (l : List FundReservation) (res : FundReservation)
    (rid : String) (hfresh : ∀ x ∈ l, x.reservationId ≠ rid)
    (hres : res.reservationId = rid) :
    findRes (l ++ [res]) rid = some res := by
  induction l with
  | nil => simp [findRes, List.find?, hres]
  | cons x rest ih =>
    have hx : (x.reservationId == rid) = false := by
      simpa using hfresh x (List.mem_cons_self _ _)
    rw [List.cons_append, findRes_cons, hx, if_neg (by simp),
      ih (fun y hy => hfresh y (List.mem_cons_of_mem _ hy))]

theorem setRes_append_fresh (l : List FundReservation) (res : FundReservation)
    (rid : String) (g : FundReservation → FundReservation)
    (hfresh : ∀ x ∈ l, x.reservationId ≠ rid)
    (hres : res.reservationId = rid) :
    setRes (l ++ [res]) rid g = l ++ [g res] := by
  induction l with
  | nil => simp [setRes, hres]
  | cons x rest ih =>
    have hx : (x.reservationId == rid) = false := by
      simpa using hfresh x (List.mem_cons_self _ _)
    rw [List.cons_append, setRes, if_neg (by simp [hx]),
      ih (fun y hy => hfresh y (List.mem_cons_of_mem _ hy)), List.cons_append]

/-! ## Claim C3: reserve_funds -/

/-- C3.  For a cash position found at the requested provider account,
`reserve_funds` fails with the insufficient-funds `ValidationError` and leaves
the store untouched when `available_balance < amount`; otherwise it returns an
`"ACTIVE"` reservation of exactly the requested amount, appends exactly that
one reservation to the store, and moves the amount from available to reserved
on the fetched position — both updates land in the same returned state, so
they happen together or not at all. -/
theorem reserveFunds_spec (s : TreasuryState) (reserveIn : ReserveFundsCreate)
    (rid : String) (p : CashPosition)
    (hp : findPos s.positions reserveIn.provider reserveIn.accountId = some p) :
    (p.availableBalance < reserveIn.amount →
      (reserveFunds s reserveIn rid).1 =
          .error (.validationError "Insufficient funds")
        ∧ (reserveFunds s reserveIn rid).2 = s)
    ∧ (¬ p.availableBalance < reserveIn.amount →
      ∃ res, (reserveFunds s reserveIn rid).1 = .ok res
        ∧ res.status = "ACTIVE"
        ∧ res.amount = reserveIn.amount
        ∧ (reserveFunds s reserveIn rid).2.reservations = s.reservations ++ [res]
        ∧ findPos (reserveFunds s reserveIn rid).2.positions
            reserveIn.provider reserveIn.accountId =
          some { p with
                 availableBalance := p.availableBalance - reserveIn.amount
                 reservedBalance := p.reservedBalance + reserveIn.amount }) := by
  constructor
  · intro hlt
    simp only [reserveFunds, hp, if_pos hlt]
    exact ⟨trivial, trivial⟩
  · intro hge
    have hfind := findPos_setPos s.positions reserveIn.provider reserveIn.accountId
      (fun q =>
        { q with
          reservedBalance := q.reservedBalance + reserveIn.amount
          availableBalance := q.availableBalance - reserveIn.amount })
      (fun q => ⟨rfl, rfl⟩)
    rw [hp] at hfind
    simp only [reserveFunds, hp, if_neg hge]
    exact ⟨_, rfl, rfl, rfl, rfl, by rw [hfind]; rfl⟩

/-- Cash position of the specification's ZMW scenario: 500.00 available,
nothing reserved. -/
def zmwPos : CashPosition :=
  { provider := "MTN", accountId := "ACC-1", currencyCode := "ZMW"
    totalBalance := 500, availableBalance := 500, reservedBalance := 0
    lastSyncedAt := none, note := none }

/-- The ZMW position after the 500.00 reservation: available 0, reserved 500. -/
def zmwPosAfter : CashPosition :=
  { provider := "MTN", accountId := "ACC-1", currencyCode := "ZMW"
    totalBalance := 500, availableBalance := 0, reservedBalance := 500
    lastSyncedAt := none, note := none }

/-- The reservation record produced by the scenario's first reserve. -/
def zmwRes : FundReservation :=
  { reservationId := "R1", provider := "MTN", accountId := "ACC-1"
    amount := 500, currencyCode := "ZMW", transactionRef := "TX-1"
    status := "ACTIVE", releasedAt := none }

/-- Witness for C3, the specification's ZMW scenario: reserving 500.00 against
500.00 available succeeds and leaves available 0.00 / reserved 500.00, and a
second reserve of 1.00 then fails with the insufficient-funds error. -/
theorem reserveFunds_spec_witness :
    (∃ res,
      (reserveFunds ⟨[zmwPos], []⟩ ⟨"MTN", "ACC-1", 500, "ZMW", "TX-1"⟩ "R1").1 =
          .ok res
        ∧ res.status = "ACTIVE" ∧ res.amount = 500
        ∧ (reserveFunds ⟨[zmwPos], []⟩
            ⟨"MTN", "ACC-1", 500, "ZMW", "TX-1"⟩ "R1").2.reservations = [res]
        ∧ findPos (reserveFunds ⟨[zmwPos], []⟩
            ⟨"MTN", "ACC-1", 500, "ZMW", "TX-1"⟩ "R1").2.positions "MTN" "ACC-1" =
            some zmwPosAfter)
    ∧ (reserveFunds ⟨[zmwPosAfter], [zmwRes]⟩
          ⟨"MTN", "ACC-1", 1, "ZMW", "TX-2"⟩ "R2").1 =
        .error (.validationError "Insufficient funds")
    ∧ (reserveFunds ⟨[zmwPosAfter], [zmwRes]⟩
          ⟨"MTN", "ACC-1", 1, "ZMW", "TX-2"⟩ "R2").2 =
        ⟨[zmwPosAfter], [zmwRes]⟩ := by
  refine ⟨?_, ?_⟩
  · have h := (reserveFunds_spec ⟨[zmwPos], []⟩
      ⟨"MTN", "ACC-1", 500, "ZMW", "TX-1"⟩ "R1" zmwPos rfl).2 (by norm_num [zmwPos])
    obtain ⟨res, h1, h2, h3, h4, h5⟩ := h
    refine ⟨res, h1, h2, h3, by simpa using h4, ?_⟩
    rw [h5]
    norm_num [zmwPos, zmwPosAfter]
  · exact (reserveFunds_spec ⟨[zmwPosAfter], [zmwRes]⟩
      ⟨"MTN", "ACC-1", 1, "ZMW", "TX-2"⟩ "R2" zmwPosAfter rfl).1
      (by norm_num [zmwPosAfter])

/-! ## Claim C2: balance invariant under the mutating treasury operations -/

/-- The CashPosition balance invariant of the specification:
`total_balance = available_balance + reserved_balance` with both components
non-negative. -/
def posInv (p : CashPosition) : Prop :=
  p.totalBalance = p.availableBalance + p.reservedBalance
    ∧ 0 ≤ p.availableBalance ∧ 0 ≤ p.reservedBalance

instance (p : CashPosition) : Decidable (posInv p) := by
  unfold posInv; infer_instance

/-- Every stored cash position satisfies the balance invariant. -/
def stInv (s : TreasuryState) : Prop := ∀ p ∈ s.positions, posInv p

instance (s : TreasuryState) : Decidable (stInv s) := by
  unfold stInv; infer_instance

/-- The reservation about to be withdrawn (released or confirmed) is covered
by its position's reserved balance and is positive.  `reserve_funds` is the
only writer that creates reservations and it maintains this; the provider
itself never re-checks it. -/
def resWithdrawSafe (s : TreasuryState) (rid : String) : Bool :=
  match findRes s.reservations rid with
  | none => true
  | some res =>
    match findPos s.positions res.provider res.accountId with
    | none => true
    | some p => decide (0 < res.amount) && decide (res.amount ≤ p.reservedBalance)

theorem findPos_mem {ps : List CashPosition} {provider accountId : String}
    {p : CashPosition} (h : findPos ps provider accountId = some p) : p ∈ ps :=
  List.mem_of_find?_eq_some h

/-- Counterexample to C1's sibling claim C2 as stated: `update_balance`
overwrites the three balances with arbitrary caller-supplied values, so a
position satisfying the invariant beforehand need not satisfy it afterwards
(here: total 600 with available 0 + reserved 500). -/
theorem updateBalance_breaks_invariant :
    stInv ⟨[zmwPos], []⟩
      ∧ ¬ stInv (updateBalance ⟨[zmwPos], []⟩ "MTN" "ACC-1" 600 0 500 7).2 := by
  constructor
  · intro p hp
    rw [List.mem_singleton] at hp
    subst hp
    exact ⟨by norm_num [zmwPos], by norm_num [zmwPos], by norm_num [zmwPos]⟩
  · intro h
    have hstate : (updateBalance ⟨[zmwPos], []⟩ "MTN" "ACC-1" 600 0 500 7).2 =
        ⟨[{ zmwPos with
            totalBalance := 600, availableBalance := 0, reservedBalance := 500
            lastSyncedAt := some 7 }], []⟩ := rfl
    rw [hstate] at h
    have h2 := (h _ (List.mem_singleton.mpr rfl)).1
    norm_num [zmwPos] at h2

/-- C2 amended.  The reservation operations preserve the balance invariant:
`reserve_funds` outright (its amount is schema-validated positive);
`release_reservation` and `confirm_reservation` whenever the withdrawn
reservation is positive and covered by the position's reserved balance (which
is how `reserve_funds` creates them); `update_balance` and
`create_cash_position` merely copy the caller-supplied balances into the
store, so they preserve the invariant exactly when the supplied values
themselves satisfy it. -/
theorem treasuryMutators_invariant :
    (∀ s reserveIn rid, stInv s → 0 < reserveIn.amount →
      stInv (reserveFunds s reserveIn rid).2)
    ∧ (∀ s rid now, stInv s → resWithdrawSafe s rid = true →
      stInv (releaseReservation s rid now).2)
    ∧ (∀ s rid now, stInv s → resWithdrawSafe s rid = true →
      stInv (confirmReservation s rid now).2)
    ∧ (∀ s provider accountId t a r now, stInv s →
      t = a + r → 0 ≤ a → 0 ≤ r →
      stInv (updateBalance s provider accountId t a r now).2)
    ∧ (∀ s provider accountId currencyCode t a r now note, stInv s →
      t = a + r → 0 ≤ a → 0 ≤ r →
      stInv (createCashPosition s provider accountId currencyCode t a r now note).2) := by
  refine ⟨?_, ?_, ?_, ?_, ?_⟩
  · intro s reserveIn rid hs hamt
    cases hfp : findPos s.positions reserveIn.provider reserveIn.accountId with
    | none => simpa only [reserveFunds, hfp] using hs
    | some p =>
      by_cases hlt : p.availableBalance < reserveIn.amount
      · simpa only [reserveFunds, hfp, if_pos hlt] using hs
      · simp only [reserveFunds, hfp, if_neg hlt]
        intro q hq
        rcases mem_setPos _ _ _ _ _ hq with hmem | ⟨p', hp', rfl⟩
        · exact hs q hmem
        · rw [hfp] at hp'
          injection hp' with hp'
          subst hp'
          obtain ⟨he, hav, hrv⟩ := hs p (findPos_mem hfp)
          refine ⟨by simpa using by linarith, by simpa using by linarith,
            by simpa using by linarith⟩
  · intro s rid now hs hsafe
    cases hr : findRes s.reservations rid with
    | none => simpa only [releaseReservation, hr] using hs
    | some res =>
      by_cases hst : res.status = "ACTIVE"
      · have hact : ¬(res.status ≠ "ACTIVE") := fun hne => hne hst
        cases hfp : findPos s.positions res.provider res.accountId with
        | none =>
          simpa only [releaseReservation, hr, if_neg hact, hfp] using hs
        | some p =>
          simp only [resWithdrawSafe, hr, hfp, Bool.and_eq_true,
            decide_eq_true_eq] at hsafe
          obtain ⟨hpos, hcov⟩ := hsafe
          simp only [releaseReservation, hr, if_neg hact, hfp]
          intro q hq
          rcases mem_setPos _ _ _ _ _ hq with hmem | ⟨p', hp', rfl⟩
          · exact hs q hmem
          · rw [hfp] at hp'
            injection hp' with hp'
            subst hp'
            obtain ⟨he, hav, hrv⟩ := hs p (findPos_mem hfp)
            refine ⟨by simpa using by linarith, by simpa using by linarith,
              by simpa using by linarith⟩
      · simpa only [releaseReservation, hr, if_pos hst] using hs
  · intro s rid now hs hsafe
    cases hr : findRes s.reservations rid with
    | none => simpa only [confirmReservation, hr] using hs
    | some res =>
      by_cases hst : res.status = "ACTIVE"
      · have hact : ¬(res.status ≠ "ACTIVE") := fun hne => hne hst
        cases hfp : findPos s.positions res.provider res.accountId with
        | none =>
          simpa only [confirmReservation, hr, if_neg hact, hfp] using hs
        | some p =>
          simp only [resWithdrawSafe, hr, hfp, Bool.and_eq_true,
            decide_eq_true_eq] at hsafe
          obtain ⟨hpos, hcov⟩ := hsafe
          simp only [confirmReservation, hr, if_neg hact, hfp]
          intro q hq
          rcases mem_setPos _ _ _ _ _ hq with hmem | ⟨p', hp', rfl⟩
          · exact hs q hmem
          · rw [hfp] at hp'
            injection hp' with hp'
            subst hp'
            obtain ⟨he, hav, hrv⟩ := hs p (findPos_mem hfp)
            refine ⟨by simpa using by linarith, by simpa using by linarith,
              by simpa using by linarith⟩
      · simpa only [confirmReservation, hr, if_pos hst] using hs
  · intro s provider accountId t a r now hs heq ha hr
    cases hfp : findPos s.positions provider accountId with
    | none => simpa only [updateBalance, hfp] using hs
    | some p =>
      simp only [updateBalance, hfp]
      intro q hq
      rcases mem_setPos _ _ _ _ _ hq with hmem | ⟨p', _, rfl⟩
      · exact hs q hmem
      · exact ⟨by simpa using heq, by simpa using ha, by simpa using hr⟩
  · intro s provider accountId currencyCode t a r now note hs heq ha hr
    cases hfp : findPos s.positions provider accountId with
    | some p => simpa only [createCashPosition, hfp] using hs
    | none =>
      simp only [createCashPosition, hfp]
      intro q hq
      rcases List.mem_append.mp hq with hmem | hnew
      · exact hs q hmem
      · rw [List.mem_singleton] at hnew
        subst hnew
        exact ⟨by simpa using heq, by simpa using ha, by simpa using hr⟩

/-- Witness for the amended C2: the invariant holds after the scenario's
500.00 ZMW reservation against the invariant-satisfying ZMW position. -/
theorem treasuryMutators_invariant_witness :
    stInv (reserveFunds ⟨[zmwPos], []⟩ ⟨"MTN", "ACC-1", 500, "ZMW", "TX-1"⟩ "R1").2 :=
  treasuryMutators_invariant.1 ⟨[zmwPos], []⟩ ⟨"MTN", "ACC-1", 500, "ZMW", "TX-1"⟩ "R1"
    (by intro p hp
        rw [List.mem_singleton] at hp
        subst hp
        exact ⟨by norm_num [zmwPos], by norm_num [zmwPos], by norm_num [zmwPos]⟩)
    (by norm_num)

/-! ## Claim C5: reserve / release round trip -/

/-- C5.  Reserving an amount covered by `available_balance` and then releasing
the reservation (a fresh id, as produced by `uuid4`) restores the stored
positions exactly to their pre-reservation values; the released reservation
comes back `"RELEASED"` with `released_at` stamped; and releasing any
reservation whose status is not `"ACTIVE"` fails with the not-active
`ValidationError` and leaves the store unchanged. -/
theorem reserve_release_roundtrip (s : TreasuryState)
    (reserveIn : ReserveFundsCreate) (rid : String) (now : Nat)
    (p : CashPosition)
    (hp : findPos s.positions reserveIn.provider reserveIn.accountId = some p)
    (hge : ¬ p.availableBalance < reserveIn.amount)
    (hfresh : ∀ x ∈ s.reservations, x.reservationId ≠ rid) :
    ((releaseReservation (reserveFunds s reserveIn rid).2 rid now).2.positions
        = s.positions
      ∧ ∃ res, (releaseReservation (reserveFunds s reserveIn rid).2 rid now).1
            = .ok res
          ∧ res.status = "RELEASED" ∧ res.releasedAt = some now
          ∧ res.amount = reserveIn.amount)
    ∧ (∀ s' rid' now' res, findRes s'.reservations rid' = some res →
        res.status ≠ "ACTIVE" →
        (releaseReservation s' rid' now').1 =
            .error (.validationError
              ("Reservation " ++ rid' ++ " is not active and cannot be released"))
          ∧ (releaseReservation s' rid' now').2 = s') := by
  constructor
  · have hst1 : (reserveFunds s reserveIn rid).2 =
        ⟨setPos s.positions reserveIn.provider reserveIn.accountId
            (fun q =>
              { q with
                reservedBalance := q.reservedBalance + reserveIn.amount
                availableBalance := q.availableBalance - reserveIn.amount }),
          s.reservations ++
            [{ reservationId := rid
               provider := reserveIn.provider
               accountId := reserveIn.accountId
               amount := reserveIn.amount
               currencyCode := p.currencyCode
               transactionRef := reserveIn.transactionRef
               status := "ACTIVE"
               releasedAt := none }]⟩ := by
      simp only [reserveFunds, hp, if_neg hge]
    have hfr := findRes_append_fresh s.reservations
      { reservationId := rid
        provider := reserveIn.provider
        accountId := reserveIn.accountId
        amount := reserveIn.amount
        currencyCode := p.currencyCode
        transactionRef := reserveIn.transactionRef
        status := "ACTIVE"
        releasedAt := none } rid hfresh rfl
    have hfp1 := findPos_setPos s.positions reserveIn.provider reserveIn.accountId
      (fun q =>
        { q with
          reservedBalance := q.reservedBalance + reserveIn.amount
          availableBalance := q.availableBalance - reserveIn.amount })
      (fun q => ⟨rfl, rfl⟩)
    rw [hp] at hfp1
    have hact : ¬(("ACTIVE" : String) ≠ "ACTIVE") := fun hne => hne rfl
    rw [hst1]
    simp only [releaseReservation, hfr, if_neg hact, hfp1, Option.map_some']
    constructor
    · rw [setPos_setPos s.positions reserveIn.provider reserveIn.accountId
        (fun q =>
          { q with
            reservedBalance := q.reservedBalance + reserveIn.amount
            availableBalance := q.availableBalance - reserveIn.amount })
        (fun q =>
          { q with
            reservedBalance := q.reservedBalance - reserveIn.amount
            availableBalance := q.availableBalance + reserveIn.amount })
        (fun q => ⟨rfl, rfl⟩)]
      apply setPos_id
      intro q
      cases q
      simp only [CashPosition.mk.injEq]
      refine ⟨trivial, trivial, trivial, trivial, by ring, by ring, trivial, trivial⟩
    · exact ⟨_, rfl, rfl, rfl, rfl⟩
  · intro s' rid' now' res hres hnact
    simp only [releaseReservation, hres, if_pos hnact]
    exact ⟨trivial, trivial⟩

/-- Witness for C5 at the ZMW scenario: reserving 500.00 and releasing it
restores the single stored position to exactly its original record. -/
theorem reserve_release_roundtrip_witness :
    (releaseReservation
        (reserveFunds ⟨[zmwPos], []⟩ ⟨"MTN", "ACC-1", 500, "ZMW", "TX-1"⟩ "R1").2
        "R1" 9).2.positions = [zmwPos]
      ∧ ∃ res, (releaseReservation
          (reserveFunds ⟨[zmwPos], []⟩ ⟨"MTN", "ACC-1", 500, "ZMW", "TX-1"⟩ "R1").2
          "R1" 9).1 = .ok res
        ∧ res.status = "RELEASED" ∧ res.releasedAt = some 9 ∧ res.amount = 500 :=
  (reserve_release_roundtrip ⟨[zmwPos], []⟩ ⟨"MTN", "ACC-1", 500, "ZMW", "TX-1"⟩
    "R1" 9 zmwPos rfl (by norm_num [zmwPos]) (by intro x hx; cases hx)).1

/-! ## Claim C6: confirm_reservation -/

/-- C6.  Confirming an `"ACTIVE"` reservation deducts its amount from the
owning position's reserved and total balances while leaving
`available_balance` untouched, and marks the reservation `"CONFIRMED"`;
confirming a non-`"ACTIVE"` reservation fails with the not-active
`ValidationError` and changes nothing; and after reserve-then-confirm the
position shows `available_balance` reduced exactly once (by the reserve) and
`total_balance` reduced by the amount, with `reserved_balance` back to its
original value. -/
theorem confirmReservation_spec :
    (∀ s rid now res p, findRes s.reservations rid = some res →
      res.status = "ACTIVE" →
      findPos s.positions res.provider res.accountId = some p →
      ∃ res', (confirmReservation s rid now).1 = .ok res'
        ∧ res'.status = "CONFIRMED"
        ∧ findPos (confirmReservation s rid now).2.positions
            res.provider res.accountId =
          some { p with
                 reservedBalance := p.reservedBalance - res.amount
                 totalBalance := p.totalBalance - res.amount })
    ∧ (∀ s rid now res, findRes s.reservations rid = some res →
      res.status ≠ "ACTIVE" →
      (confirmReservation s rid now).1 =
          .error (.validationError
            ("Reservation " ++ rid ++ " is not active and cannot be confirmed"))
        ∧ (confirmReservation s rid now).2 = s)
    ∧ (∀ s reserveIn rid now p,
      findPos s.positions reserveIn.provider reserveIn.accountId = some p →
      ¬ p.availableBalance < reserveIn.amount →
      (∀ x ∈ s.reservations, x.reservationId ≠ rid) →
      findPos (confirmReservation (reserveFunds s reserveIn rid).2 rid now).2.positions
          reserveIn.provider reserveIn.accountId =
        some { p with
               availableBalance := p.availableBalance - reserveIn.amount
               totalBalance := p.totalBalance - reserveIn.amount }) := by
  refine ⟨?_, ?_, ?_⟩
  · intro s rid now res p hres hact hfp
    have hnact : ¬(res.status ≠ "ACTIVE") := fun hne => hne hact
    have hfind := findPos_setPos s.positions res.provider res.accountId
      (fun q =>
        { q with
          reservedBalance := q.reservedBalance - res.amount
          totalBalance := q.totalBalance - res.amount })
      (fun q => ⟨rfl, rfl⟩)
    rw [hfp] at hfind
    simp only [confirmReservation, hres, if_neg hnact, hfp]
    exact ⟨_, rfl, rfl, by rw [hfind]; rfl⟩
  · intro s rid now res hres hnact
    simp only [confirmReservation, hres, if_pos hnact]
    exact ⟨trivial, trivial⟩
  · intro s reserveIn rid now p hp hge hfresh
    have hst1 : (reserveFunds s reserveIn rid).2 =
        ⟨setPos s.positions reserveIn.provider reserveIn.accountId
            (fun q =>
              { q with
                reservedBalance := q.reservedBalance + reserveIn.amount
                availableBalance := q.availableBalance - reserveIn.amount }),
          s.reservations ++
            [{ reservationId := rid
               provider := reserveIn.provider
               accountId := reserveIn.accountId
               amount := reserveIn.amount
               currencyCode := p.currencyCode
               transactionRef := reserveIn.transactionRef
               status := "ACTIVE"
               releasedAt := none }]⟩ := by
      simp only [reserveFunds, hp, if_neg hge]
    have hfr := findRes_append_fresh s.reservations
      { reservationId := rid
        provider := reserveIn.provider
        accountId := reserveIn.accountId
        amount := reserveIn.amount
        currencyCode := p.currencyCode
        transactionRef := reserveIn.transactionRef
        status := "ACTIVE"
        releasedAt := none } rid hfresh rfl
    have hfp1 := findPos_setPos s.positions reserveIn.provider reserveIn.accountId
      (fun q =>
        { q with
          reservedBalance := q.reservedBalance + reserveIn.amount
          availableBalance := q.availableBalance - reserveIn.amount })
      (fun q => ⟨rfl, rfl⟩)
    rw [hp] at hfp1
    have hact : ¬(("ACTIVE" : String) ≠ "ACTIVE") := fun hne => hne rfl
    rw [hst1]
    simp only [confirmReservation, hfr, if_neg hact, hfp1, Option.map_some']
    rw [setPos_setPos s.positions reserveIn.provider reserveIn.accountId
      (fun q =>
        { q with
          reservedBalance := q.reservedBalance + reserveIn.amount
          availableBalance := q.availableBalance - reserveIn.amount })
      (fun q =>
        { q with
          reservedBalance := q.reservedBalance - reserveIn.amount
          totalBalance := q.totalBalance - reserveIn.amount })
      (fun q => ⟨rfl, rfl⟩)]
    have hfind2 := findPos_setPos s.positions reserveIn.provider reserveIn.accountId
      (fun q =>
        { q with
          totalBalance := q.totalBalance - reserveIn.amount
          availableBalance := q.availableBalance - reserveIn.amount
          reservedBalance := q.reservedBalance + reserveIn.amount - reserveIn.amount })
      (fun q => ⟨rfl, rfl⟩)
    rw [hp] at hfind2
    rw [hfind2]
    simp only [Option.map_some', Option.some.injEq]
    cases p
    simp only [CashPosition.mk.injEq]
    refine ⟨trivial, trivial, trivial, by ring_nf, trivial, by ring_nf, trivial, trivial⟩

/-- Witness for C6: confirming the ZMW scenario's 500.00 reservation leaves
the position with available 0, reserved 0 and total 0 — the available balance
was reduced once by the reserve, the total once by the confirm. -/
theorem confirmReservation_spec_witness :
    findPos (confirmReservation
        (reserveFunds ⟨[zmwPos], []⟩ ⟨"MTN", "ACC-1", 500, "ZMW", "TX-1"⟩ "R1").2
        "R1" 9).2.positions "MTN" "ACC-1" =
      some { zmwPos with
             availableBalance := zmwPos.availableBalance - 500
             totalBalance := zmwPos.totalBalance - 500 } :=
  confirmReservation_spec.2.2 ⟨[zmwPos], []⟩ ⟨"MTN", "ACC-1", 500, "ZMW", "TX-1"⟩
    "R1" 9 zmwPos rfl (by norm_num [zmwPos]) (by intro x hx; cases hx)

/-! ## Claim C8: loan status state machine

From `Middleware/DataProvider/LoanProvider/loanProvider.py`
(`update_loan_status`) and `database/model/finance/loan.py` (`status` is an
optional string). -/

/-- The `Loan` row, reduced to the field the state machine reads and writes.
`status` is `Optional[str]` in the model (nullable column). -/
structure Loan where
  status : Option String
deriving DecidableEq, Repr

/-- The `valid_transitions` dictionary of `update_loan_status`, with
`dict.get(status, [])` for any other key. -/
def validTransitions (status : String) : List String :=
  match status with
  | "PENDING" => ["DISBURSED"]
  | "DISBURSED" => ["ACTIVE"]
  | "ACTIVE" => ["CLOSED", "DEFAULTED"]
  | "CLOSED" => []
  | "DEFAULTED" => []
  | _ => []

/-- `LoanProvider.update_loan_status` on a fetched loan: raises
`ValidationError` when the stored status is undefined or the requested target
is not reachable from it, otherwise commits the new status.  The second
component is the stored loan after the call. -/
def updateLoanStatus (loan : Loan) (status : String) :
    Except DomErr Loan × Loan :=
  match loan.status with
  | none => (.error (.validationError "Current loan status is undefined"), loan)
  | some current =>
    if status ∈ validTransitions current then
      (.ok { loan with status := some status },
        { loan with status := some status })
    else
      (.error (.validationError
        ("Invalid status transition from " ++ current ++ " to " ++ status)),
        loan)

/-- C8.  `update_loan_status` succeeds exactly on the four tabled transitions
PENDING→DISBURSED, DISBURSED→ACTIVE, ACTIVE→CLOSED, ACTIVE→DEFAULTED; every
other request — including anything out of CLOSED or DEFAULTED, ACTIVE
requested on a PENDING loan, and an undefined stored status — fails with a
`ValidationError` and leaves the stored status unchanged. -/
theorem updateLoanStatus_spec (loan : Loan) (target : String) :
    ((∃ l, (updateLoanStatus loan target).1 = .ok l) ↔
      (loan.status, target) ∈
        [(some "PENDING", "DISBURSED"), (some "DISBURSED", "ACTIVE"),
         (some "ACTIVE", "CLOSED"), (some "ACTIVE", "DEFAULTED")])
    ∧ (∀ l, (updateLoanStatus loan target).1 = .ok l →
        l.status = some target ∧ (updateLoanStatus loan target).2 = l)
    ∧ ((¬ ∃ l, (updateLoanStatus loan target).1 = .ok l) →
        (∃ msg, (updateLoanStatus loan target).1 = .error (.validationError msg))
          ∧ (updateLoanStatus loan target).2 = loan) := by
  cases loan with
  | mk st =>
    cases st with
    | none =>
      refine ⟨⟨?_, ?_⟩, ?_, ?_⟩
      · rintro ⟨l, hl⟩
        exact Except.noConfusion hl
      · intro h
        simp at h
      · intro l hl
        exact Except.noConfusion hl
      · intro _
        exact ⟨⟨"Current loan status is undefined", rfl⟩, rfl⟩
    | some current =>
      by_cases hmem : target ∈ validTransitions current
      · refine ⟨⟨fun _ => ?_, fun _ => ⟨⟨some target⟩, ?_⟩⟩, ?_, ?_⟩
        · unfold validTransitions at hmem
          revert hmem
          split <;> rename_i h
          · intro hmem
            rw [List.mem_singleton] at hmem
            simp [h, hmem]
          · intro hmem
            rw [List.mem_singleton] at hmem
            simp [h, hmem]
          · intro hmem
            rcases List.mem_cons.mp hmem with hmem | hmem
            · simp [h, hmem]
            · rw [List.mem_singleton] at hmem
              simp [h, hmem]
          · intro hmem
            cases hmem
          · intro hmem
            cases hmem
          · intro hmem
            cases hmem
        · simp only [updateLoanStatus, if_pos hmem]
        · intro l hl
          simp only [updateLoanStatus, if_pos hmem] at hl
          injection hl with hl
          subst hl
          exact ⟨rfl, by simp only [updateLoanStatus, if_pos hmem]⟩
        · intro hne
          exact absurd ⟨⟨some target⟩,
            by simp only [updateLoanStatus, if_pos hmem]⟩ hne
      · refine ⟨⟨?_, ?_⟩, ?_, ?_⟩
        · rintro ⟨l, hl⟩
          simp only [updateLoanStatus, if_neg hmem] at hl
          exact Except.noConfusion hl
        · intro h
          exfalso
          simp only [List.mem_cons, List.mem_singleton, List.not_mem_nil,
            or_false] at h
          rcases h with h | h | h | h <;> rw [Prod.mk.injEq] at h <;>
            rcases h with ⟨h1, h2⟩ <;> injection h1 with h1 <;>
            exact hmem (by rw [h1, h2]; simp [validTransitions])
        · intro l hl
          simp only [updateLoanStatus, if_neg hmem] at hl
          exact Except.noConfusion hl
        · intro _
          simp only [updateLoanStatus, if_neg hmem]
          exact ⟨⟨_, rfl⟩, trivial⟩

/-- Witness for C8: ACTIVE requested on a PENDING loan fails and leaves the
stored status PENDING, while DISBURSED on the same loan succeeds. -/
theorem updateLoanStatus_spec_witness :
    ((¬ ∃ l, (updateLoanStatus ⟨some "PENDING"⟩ "ACTIVE").1 = .ok l)
        → (∃ msg, (updateLoanStatus ⟨some "PENDING"⟩ "ACTIVE").1 =
              .error (.validationError msg))
          ∧ (updateLoanStatus ⟨some "PENDING"⟩ "ACTIVE").2 = ⟨some "PENDING"⟩)
      ∧ ((updateLoanStatus ⟨some "PENDING"⟩ "ACTIVE").2 = ⟨some "PENDING"⟩
        ∧ ∃ l, (updateLoanStatus ⟨some "PENDING"⟩ "DISBURSED").1 = .ok l) := by
  refine ⟨(updateLoanStatus_spec ⟨some "PENDING"⟩ "ACTIVE").2.2, rfl, ?_⟩
  exact (updateLoanStatus_spec ⟨some "PENDING"⟩ "DISBURSED").1.mpr
    (by simp)

/-! ## Claim C9: disbursement lifecycle

From `Middleware/DataProvider/LoanProvider/disbursementProvider.py`. -/

/-- `LoanDisbursement` row, reduced to the fields the lifecycle operations
read and write. -/
structure LoanDisbursement where
  status : String
  notes : Option String
deriving DecidableEq, Repr

/-- `DisbursementProvider.create_disbursement` after the loan lookup: rejects
any loan whose status is not `"PENDING"` or `"DISBURSED"` (note the stored
status is nullable, and `None` is not in the list), otherwise inserts a
`"PENDING"` disbursement carrying the optional input notes. -/
def createDisbursement (loanStatus : Option String) (notes : Option String) :
    Except DomErr LoanDisbursement :=
  if loanStatus = some "PENDING" ∨ loanStatus = some "DISBURSED" then
    .ok { status := "PENDING", notes := notes }
  else
    .error (.validationError "Cannot disburse loan with this status")

/-- `DisbursementProvider.execute_disbursement` on the fetched disbursement:
requires status `"PENDING"`, then commits `"COMPLETED"`.  Second component is
the stored row after the call. -/
def executeDisbursement (d : LoanDisbursement) :
    Except DomErr LoanDisbursement × LoanDisbursement :=
  if d.status ≠ "PENDING" then
    (.error (.validationError ("Disbursement already " ++ d.status)), d)
  else
    (.ok { d with status := "COMPLETED" }, { d with status := "COMPLETED" })

/-- `DisbursementProvider.fail_disbursement` on the fetched disbursement: no
precondition — unconditionally sets status `"FAILED"` and appends the reason
to the notes. -/
def failDisbursement (d : LoanDisbursement) (reason : String) : LoanDisbursement :=
  { d with
    status := "FAILED"
    notes := some ((d.notes.getD "") ++ "\nFailed: " ++ reason) }

/-- Counterexample to C9 as stated: `fail_disbursement` has no status guard,
so it moves a COMPLETED disbursement to FAILED — a transition out of a
terminal state. -/
theorem failDisbursement_changes_completed :
    (⟨"COMPLETED", none⟩ : LoanDisbursement).status = "COMPLETED"
      ∧ (failDisbursement ⟨"COMPLETED", none⟩ "provider timeout").status = "FAILED"
      ∧ (failDisbursement ⟨"COMPLETED", none⟩ "provider timeout").status
          ≠ "COMPLETED" := by
  refine ⟨rfl, rfl, ?_⟩
  intro h
  exact absurd (congrArg String.length h) (by decide)

/-- C9 amended.  A disbursement is created (status `"PENDING"`) exactly when
the owning loan's status is PENDING or DISBURSED; `execute` succeeds exactly
from `"PENDING"`, committing `"COMPLETED"`, and fails with `ValidationError`
leaving the row unchanged from any other status (in particular it never
changes a COMPLETED or FAILED row); `fail` has no status guard: it records
the reason and sets `"FAILED"` from every status, including from
`"COMPLETED"` and `"FAILED"`. -/
theorem disbursement_lifecycle_spec :
    (∀ loanStatus notes, (∃ d, createDisbursement loanStatus notes = .ok d) ↔
      loanStatus = some "PENDING" ∨ loanStatus = some "DISBURSED")
    ∧ (∀ loanStatus notes d, createDisbursement loanStatus notes = .ok d →
      d.status = "PENDING")
    ∧ (∀ d : LoanDisbursement, d.status = "PENDING" →
      (executeDisbursement d).1 = .ok { d with status := "COMPLETED" }
        ∧ (executeDisbursement d).2 = { d with status := "COMPLETED" })
    ∧ (∀ d : LoanDisbursement, d.status ≠ "PENDING" →
      (executeDisbursement d).1 =
          .error (.validationError ("Disbursement already " ++ d.status))
        ∧ (executeDisbursement d).2 = d)
    ∧ (∀ d reason, (failDisbursement d reason).status = "FAILED"
        ∧ (failDisbursement d reason).notes =
          some ((d.notes.getD "") ++ "\nFailed: " ++ reason)) := by
  refine ⟨?_, ?_, ?_, ?_, ?_⟩
  · intro loanStatus notes
    constructor
    · rintro ⟨d, hd⟩
      by_cases h : loanStatus = some "PENDING" ∨ loanStatus = some "DISBURSED"
      · exact h
      · rw [createDisbursement, if_neg h] at hd
        exact Except.noConfusion hd
    · intro h
      exact ⟨_, by rw [createDisbursement, if_pos h]⟩
  · intro loanStatus notes d hd
    by_cases h : loanStatus = some "PENDING" ∨ loanStatus = some "DISBURSED"
    · rw [createDisbursement, if_pos h] at hd
      injection hd with hd
      rw [← hd]
    · rw [createDisbursement, if_neg h] at hd
      exact Except.noConfusion hd
  · intro d hd
    have h : ¬(d.status ≠ "PENDING") := fun hne => hne hd
    rw [executeDisbursement, if_neg h]
    exact ⟨rfl, rfl⟩
  · intro d hd
    rw [executeDisbursement, if_pos hd]
    exact ⟨rfl, rfl⟩
  · intro d reason
    exact ⟨rfl, rfl⟩

/-- Witness for the amended C9: a disbursement created on a PENDING loan
executes to COMPLETED; executing it again is rejected; failing it afterwards
still forces it to FAILED. -/
theorem disbursement_lifecycle_spec_witness :
    (∃ d, createDisbursement (some "PENDING") none = .ok d)
      ∧ (executeDisbursement ⟨"PENDING", none⟩).1 = .ok ⟨"COMPLETED", none⟩
      ∧ (executeDisbursement ⟨"COMPLETED", none⟩).2 = ⟨"COMPLETED", none⟩
      ∧ (failDisbursement ⟨"COMPLETED", none⟩ "rail error").status = "FAILED" := by
  refine ⟨?_, ?_, ?_, ?_⟩
  · exact (disbursement_lifecycle_spec.1 (some "PENDING") none).mpr (Or.inl rfl)
  · exact (disbursement_lifecycle_spec.2.2.1 ⟨"PENDING", none⟩ rfl).1
  · exact (disbursement_lifecycle_spec.2.2.2.1 ⟨"COMPLETED", none⟩
      (by intro h; exact absurd (congrArg String.length h) (by decide))).2
  · exact (disbursement_lifecycle_spec.2.2.2.2 ⟨"COMPLETED", none⟩ "rail error").1

/-! ## Claim C10: unconditional completion of payments and settlements

From `Middleware/DataProvider/PaymentProvider/settlementProvider.py`,
`outboundProvider.py` and `inboundProvider.py`. -/

/-- `Payment` row (`database/model/payments/payment.py`), reduced to the
fields the completion operations read and write.  The getters filter on
`payment_type` (`"SETTLEMENT"`, `"OUTBOUND"`, `"INBOUND"`). -/
structure Payment where
  paymentId : String
  paymentType : String
  status : String
  providerReference : Option String
deriving DecidableEq, Repr

/-- Lookup behind `get_settlement` / `get_outbound_payment` /
`get_inbound_payment`: the stored payment with the given id, provided its
`payment_type` matches; `NotFoundError` otherwise. -/
def findPayment (ps : List Payment) (pid ptype : String) : Option Payment :=
  match ps.find? (fun p => p.paymentId == pid) with
  | none => none
  | some p => if p.paymentType == ptype then some p else none

/-- Update (in place) the first stored payment with the given id. -/
def setPayment (ps : List Payment) (pid : String) (f : Payment → Payment) :
    List Payment :=
  match ps with
  | [] => []
  | p :: rest =>
    if p.paymentId == pid then f p :: rest else p :: setPayment rest pid f

/-- `SettlementProvider.complete_settlement`: fetches the settlement and sets
`status = "COMPLETED"` unconditionally — there is no check of the current
status. -/
def completeSettlement (ps : List Payment) (sid : String) :
    Except DomErr Payment × List Payment :=
  match findPayment ps sid "SETTLEMENT" with
  | none => (.error (.notFound "Settlement" sid), ps)
  | some p =>
    (.ok { p with status := "COMPLETED" },
      setPayment ps sid (fun q => { q with status := "COMPLETED" }))

/-- `OutboundPaymentProvider.complete_payment`: fetches the outbound payment,
sets `status = "COMPLETED"` and records the provider reference — no check of
the current status. -/
def completeOutboundPayment (ps : List Payment) (pid providerRef : String) :
    Except DomErr Payment × List Payment :=
  match findPayment ps pid "OUTBOUND" with
  | none => (.error (.notFound "OutboundPayment" pid), ps)
  | some p =>
    (.ok { p with status := "COMPLETED", providerReference := some providerRef },
      setPayment ps pid
        (fun q =>
          { q with status := "COMPLETED", providerReference := some providerRef }))

/-- `InboundPaymentProvider.complete_payment`: fetches the inbound payment and
sets `status = "COMPLETED"` unconditionally. -/
def completeInboundPayment (ps : List Payment) (pid : String) :
    Except DomErr Payment × List Payment :=
  match findPayment ps pid "INBOUND" with
  | none => (.error (.notFound "InboundPayment" pid), ps)
  | some p =>
    (.ok { p with status := "COMPLETED" },
      setPayment ps pid (fun q => { q with status := "COMPLETED" }))

/-- C10.  For every stored payment of the matching type — whatever its current
status, including `"CANCELLED"`, `"FAILED"` and `"REVERSED"` — the three
completion operations succeed and return the record with status
`"COMPLETED"`: none of them checks the current status, so COMPLETED is
reachable from every status. -/
theorem completePayment_unconditional (ps : List Payment) (pid providerRef : String)
    (p : Payment) :
    (findPayment ps pid "SETTLEMENT" = some p →
      (completeSettlement ps pid).1 = .ok { p with status := "COMPLETED" })
    ∧ (findPayment ps pid "OUTBOUND" = some p →
      (completeOutboundPayment ps pid providerRef).1 =
        .ok { p with status := "COMPLETED", providerReference := some providerRef })
    ∧ (findPayment ps pid "INBOUND" = some p →
      (completeInboundPayment ps pid).1 = .ok { p with status := "COMPLETED" }) := by
  refine ⟨?_, ?_, ?_⟩
  · intro hp
    simp only [completeSettlement, hp]
  · intro hp
    simp only [completeOutboundPayment, hp]
  · intro hp
    simp only [completeInboundPayment, hp]

/-- Witness for C10: a CANCELLED settlement, a REVERSED outbound payment and a
FAILED inbound payment all complete to COMPLETED. -/
theorem completePayment_unconditional_witness :
    (completeSettlement [⟨"S1", "SETTLEMENT", "CANCELLED", none⟩] "S1").1 =
        .ok ⟨"S1", "SETTLEMENT", "COMPLETED", none⟩
      ∧ (completeOutboundPayment [⟨"P1", "OUTBOUND", "REVERSED", none⟩]
          "P1" "EXT-9").1 = .ok ⟨"P1", "OUTBOUND", "COMPLETED", some "EXT-9"⟩
      ∧ (completeInboundPayment [⟨"P2", "INBOUND", "FAILED", none⟩] "P2").1 =
        .ok ⟨"P2", "INBOUND", "COMPLETED", none⟩ := by
  refine ⟨?_, ?_, ?_⟩
  · exact (completePayment_unconditional [⟨"S1", "SETTLEMENT", "CANCELLED", none⟩]
      "S1" "EXT-9" ⟨"S1", "SETTLEMENT", "CANCELLED", none⟩).1 rfl
  · exact (completePayment_unconditional [⟨"P1", "OUTBOUND", "REVERSED", none⟩]
      "P1" "EXT-9" ⟨"P1", "OUTBOUND", "REVERSED", none⟩).2.1 rfl
  · exact (completePayment_unconditional [⟨"P2", "INBOUND", "FAILED", none⟩]
      "P2" "EXT-9" ⟨"P2", "INBOUND", "FAILED", none⟩).2.2 rfl

/-! ## Claim C4: journal creation

From `schemas/journalSchema.py` (`JournalCreate`, validator
`postings_must_not_be_empty`), `schemas/postingSchema.py` (`PostingCreate`)
and `Middleware/DataProvider/AccountProvider/journalProvider.py`
(`JournalProvider.create_journal`). -/

/-- `PostingCreate`: one ledger posting.  A single record names BOTH the
debit and the credit account and carries ONE positive amount in one currency
— the same amount is debited from one account and credited to the other. -/
structure PostingCreate where
  debitAccountId : Nat
  creditAccountId : Nat
  amount : ℚ
  currency : String
deriving DecidableEq, Repr

/-- `JournalCreate` after pydantic field validation. -/
structure JournalCreate where
  reference : String
  source : String
  postings : List PostingCreate
deriving DecidableEq, Repr

/-- Per-currency total debited by a posting list: each posting debits its
`amount` (in its currency) from its debit account. -/
def debitTotal (postings : List PostingCreate) (currency : String) : ℚ :=
  ((postings.filter (fun p => p.currency == currency)).map (·.amount)).sum

/-- Per-currency total credited by a posting list: each posting credits the
same `amount` (in the same currency) to its credit account. -/
def creditTotal (postings : List PostingCreate) (currency : String) : ℚ :=
  ((postings.filter (fun p => p.currency == currency)).map (·.amount)).sum

/-- Journal creation as the source composes it: the pydantic validator
rejects an empty posting list, then `JournalProvider.create_journal` rejects
a duplicate reference (`ValueError`) and otherwise persists the journal.
There is no balance check anywhere on this path — none is needed, because a
posting carries one amount for both of its legs. -/
def createJournal (existingRefs : List String) (j : JournalCreate) :
    Except DomErr JournalCreate :=
  if j.postings = [] then
    .error (.validationError "Journal entry must contain at least one posting")
  else if j.reference ∈ existingRefs then
    .error (.validationError
      ("Journal with reference " ++ j.reference ++ " already exists."))
  else
    .ok j

/-- C4.  Journal creation fails on an empty posting list, fails on a
duplicate reference, and succeeds exactly when neither holds, persisting the
journal unchanged; and for every posting list the per-currency debit total IS
the per-currency credit total — each posting applies one amount to both
sides, so an unbalanced journal is unrepresentable and the Unbalanced
rejection can never fire (vacuously, any journal whose sums differed would be
rejected). -/
theorem createJournal_spec (existingRefs : List String) (j : JournalCreate) :
    (j.postings = [] → createJournal existingRefs j =
      .error (.validationError "Journal entry must contain at least one posting"))
    ∧ (j.postings ≠ [] → j.reference ∈ existingRefs →
      createJournal existingRefs j =
        .error (.validationError
          ("Journal with reference " ++ j.reference ++ " already exists.")))
    ∧ (∀ currency, debitTotal j.postings currency = creditTotal j.postings currency)
    ∧ ((∃ j', createJournal existingRefs j = .ok j') ↔
      j.postings ≠ [] ∧ j.reference ∉ existingRefs)
    ∧ (∀ j', createJournal existingRefs j = .ok j' → j' = j) := by
  refine ⟨?_, ?_, fun currency => rfl, ⟨?_, ?_⟩, ?_⟩
  · intro he
    rw [createJournal, if_pos he]
  · intro he hd
    rw [createJournal, if_neg he, if_pos hd]
  · rintro ⟨j', hj'⟩
    by_cases he : j.postings = []
    · rw [createJournal, if_pos he] at hj'
      exact Except.noConfusion hj'
    · by_cases hd : j.reference ∈ existingRefs
      · rw [createJournal, if_neg he, if_pos hd] at hj'
        exact Except.noConfusion hj'
      · exact ⟨he, hd⟩
  · rintro ⟨he, hd⟩
    exact ⟨j, by rw [createJournal, if_neg he, if_neg hd]⟩
  · intro j' hj'
    by_cases he : j.postings = []
    · rw [createJournal, if_pos he] at hj'
      exact Except.noConfusion hj'
    · by_cases hd : j.reference ∈ existingRefs
      · rw [createJournal, if_neg he, if_pos hd] at hj'
        exact Except.noConfusion hj'
      · rw [createJournal, if_neg he, if_neg hd] at hj'
        injection hj' with hj'
        exact hj'.symm

/-- Witness for C4, the specification's scenario: a posting pair moving
100.00 USD from account 1 to account 2 builds a journal (its USD debit and
credit totals both being 100), the same submission with the reference already
taken is rejected, and an empty posting list is rejected. -/
theorem createJournal_spec_witness :
    (∃ j', createJournal []
        ⟨"JRN-1", "LOAN_MODULE", [⟨1, 2, 100, "USD"⟩]⟩ = .ok j')
      ∧ debitTotal [⟨1, 2, 100, "USD"⟩] "USD" = 100
      ∧ creditTotal [⟨1, 2, 100, "USD"⟩] "USD" = 100
      ∧ createJournal ["JRN-1"] ⟨"JRN-1", "LOAN_MODULE", [⟨1, 2, 100, "USD"⟩]⟩ =
        .error (.validationError
          ("Journal with reference " ++ "JRN-1" ++ " already exists."))
      ∧ createJournal [] ⟨"JRN-2", "LOAN_MODULE", []⟩ =
        .error (.validationError
          "Journal entry must contain at least one posting") := by
  refine ⟨?_, ?_, ?_, ?_, ?_⟩
  · exact (createJournal_spec [] ⟨"JRN-1", "LOAN_MODULE", [⟨1, 2, 100, "USD"⟩]⟩).2.2.2.1.mpr
      ⟨by intro h; exact List.noConfusion h, by intro h; cases h⟩
  · have h := (createJournal_spec []
      ⟨"JRN-1", "LOAN_MODULE", [⟨1, 2, 100, "USD"⟩]⟩).2.2.1 "USD"
    simp [debitTotal, creditTotal]
  · simp [creditTotal]
  · exact (createJournal_spec ["JRN-1"]
      ⟨"JRN-1", "LOAN_MODULE", [⟨1, 2, 100, "USD"⟩]⟩).2.1
      (by intro h; exact List.noConfusion h) (List.mem_singleton.mpr rfl)
  · exact (createJournal_spec [] ⟨"JRN-2", "LOAN_MODULE", []⟩).1 rfl

/-! ## Claim C1: trial balance

From `backend/Accounting/balance.py` (`TrialBalance.compute`) and
`backend/Accounting/posting.py` (domain `Posting`). -/

/-- Modelled from the spec: the `Money` value type of `backend/core/money.py`
(the file is not under src/).  Per §3 of the spec, a fixed-point decimal
amount tagged with a 3-letter currency code; every binary operation requires
equal currencies and fails with `CurrencyMismatch` otherwise. -/
structure Money where
  amount : ℚ
  currency : String
deriving DecidableEq, Repr

/-- Modelled from the spec: currency-checked addition of `Money` (used by
`balance.py` as `+=` on `Money` values). -/
def moneyAdd (a b : Money) : Except DomErr Money :=
  if a.currency = b.currency then .ok ⟨a.amount + b.amount, a.currency⟩
  else .error (.currencyMismatch "Money arithmetic requires equal currencies")

/-- Domain `Posting` (`backend/Accounting/posting.py`): immutable two-leg
record naming the debit account, the credit account, the `Money` moved and a
timestamp.  Account UUIDs are embedded as `Nat` identifiers and timestamps as
`Nat` instants. -/
structure DomPosting where
  debitAccountId : Nat
  creditAccountId : Nat
  money : Money
  timestamp : Nat
deriving DecidableEq, Repr

/-- A journal as the balance engine consumes it: the list of its postings
(`journal.postings` is all `TrialBalance.compute` reads from a journal). -/
structure JournalRec where
  postings : List DomPosting
deriving DecidableEq, Repr

/-- A chart-of-accounts row as `TrialBalance.compute` reads it. -/
structure ChartAccount where
  id : Nat
  name : String
  accountType : String
  currencyCode : String
deriving DecidableEq, Repr

/-- Per-account running totals keyed by account id (Python dict
`account_totals`, insertion-ordered, key overwritten on re-insertion). -/
def AccTotals : Type := List (Nat × Money × Money)

/-- Python-dict insertion: overwrite the value of an existing key in place,
else append. -/
def dictInsert (m : List (Nat × Money × Money)) (k : Nat) (v : Money × Money) :
    List (Nat × Money × Money) :=
  match m with
  | [] => [(k, v)]
  | (k', v') :: rest =>
    if k' = k then (k, v) :: rest else (k', v') :: dictInsert rest k v

/-- Python-dict lookup (total: the engine only looks up keys it inserted). -/
def dictGet (m : List (Nat × Money × Money)) (k : Nat) : Money × Money :=
  match m with
  | [] => (⟨0, ""⟩, ⟨0, ""⟩)
  | (k', v) :: rest => if k' = k then v else dictGet rest k

/-- `account_ids` filtering of `TrialBalance.compute`: Python's
`if account_ids` treats both `None` and the empty list as "no filter". -/
def filterAccounts (allAccounts : List ChartAccount)
    (accountIds : Option (List Nat)) : List ChartAccount :=
  match accountIds with
  | none => allAccounts
  | some ids =>
    if ids = [] then allAccounts
    else allAccounts.filter (fun a => ids.contains a.id)

/-- Initial `account_totals`: zero debit and credit `Money` in each included
account's currency. -/
def initTotals (accounts : List ChartAccount) : AccTotals :=
  accounts.foldl
    (fun m a => dictInsert m a.id (⟨0, a.currencyCode⟩, ⟨0, a.currencyCode⟩)) []

/-- Add `money` to the debit side of the entry for `k`, when present
(`if debit_id in account_totals`); currency-checked. -/
def updDebit (m : List (Nat × Money × Money)) (k : Nat) (money : Money) :
    Except DomErr (List (Nat × Money × Money)) :=
  match m with
  | [] => .ok []
  | (k', d, c) :: rest =>
    if k' = k then do
      let d' ← moneyAdd d money
      .ok ((k', d', c) :: rest)
    else do
      let rest' ← updDebit rest k money
      .ok ((k', d, c) :: rest')

/-- Add `money` to the credit side of the entry for `k`, when present. -/
def updCredit (m : List (Nat × Money × Money)) (k : Nat) (money : Money) :
    Except DomErr (List (Nat × Money × Money)) :=
  match m with
  | [] => .ok []
  | (k', d, c) :: rest =>
    if k' = k then do
      let c' ← moneyAdd c money
      .ok ((k', d, c') :: rest)
    else do
      let rest' ← updCredit rest k money
      .ok ((k', d, c) :: rest')

/-- Both legs of one posting: its `Money` joins the debit totals of its debit
account and the credit totals of its credit account (each only when that
account is included). -/
def postBoth (m : AccTotals) (p : DomPosting) : Except DomErr AccTotals := do
  let m1 ← updDebit m p.debitAccountId p.money
  updCredit m1 p.creditAccountId p.money

/-- One posting of the aggregation loop: skipped when `as_of` is set and the
posting is dated after it, otherwise both legs are added. -/
def applyPosting (asOf : Option Nat) (m : AccTotals) (p : DomPosting) :
    Except DomErr AccTotals :=
  match asOf with
  | some t => if t < p.timestamp then .ok m else postBoth m p
  | none => postBoth m p

/-- The full aggregation pass of `TrialBalance.compute` over every posting of
every journal. -/
def aggregateTotals (accounts : List ChartAccount) (journals : List JournalRec)
    (asOf : Option Nat) : Except DomErr AccTotals :=
  journals.foldlM (fun m j => j.postings.foldlM (applyPosting asOf) m)
    (initTotals accounts)

/-- The grand-total pass: sum every included account's debit and credit
`Money` into accumulators that start at zero in the first account's currency. -/
def grandTotals (accounts : List ChartAccount) (m : AccTotals)
    (currency : String) : Except DomErr (Money × Money) :=
  accounts.foldlM
    (fun acc a => do
      let d ← moneyAdd acc.1 (dictGet m a.id).1
      let c ← moneyAdd acc.2 (dictGet m a.id).2
      .ok (d, c))
    (⟨0, currency⟩, ⟨0, currency⟩)

/-- One line of the returned trial balance (`TrialBalanceItem`). -/
structure TrialBalanceItem where
  accountId : Nat
  accountName : String
  accountType : String
  currency : String
  debit : ℚ
  credit : ℚ
deriving DecidableEq, Repr

/-- The returned trial balance (`TrialBalanceRead`). -/
structure TrialBalanceRead where
  currency : String
  items : List TrialBalanceItem
  totalDebit : ℚ
  totalCredit : ℚ
deriving DecidableEq, Repr

/-- `TrialBalance.compute`: validates that accounts exist, filters them,
aggregates every posting, sums the grand totals, raises `CalculationError`
when the grand debit and credit amounts differ and otherwise returns the
report. -/
def trialBalanceCompute (allAccounts : List ChartAccount)
    (journals : List JournalRec) (accountIds : Option (List Nat))
    (asOf : Option Nat) : Except DomErr TrialBalanceRead :=
  if allAccounts = [] then
    .error (.validationError "No accounts found in chart of accounts")
  else
    match filterAccounts allAccounts accountIds with
    | [] => .error (.validationError "None of the provided account_ids exist")
    | a0 :: rest => do
      let totals ← aggregateTotals (a0 :: rest) journals asOf
      let gt ← grandTotals (a0 :: rest) totals a0.currencyCode
      if gt.1.amount ≠ gt.2.amount then
        .error (.calculationError "Trial balance does not balance")
      else
        .ok { currency := a0.currencyCode
              items := (a0 :: rest).map (fun a =>
                { accountId := a.id
                  accountName := a.name
                  accountType := a.accountType
                  currency := a.currencyCode
                  debit := (dictGet totals a.id).1.amount
                  credit := (dictGet totals a.id).2.amount })
              totalDebit := gt.1.amount
              totalCredit := gt.2.amount }

theorem filterAccounts_nil (accountIds : Option (List Nat)) :
    filterAccounts [] accountIds = [] := by
  unfold filterAccounts
  cases accountIds with
  | none => rfl
  | some ids =>
    show (if ids = [] then [] else List.filter (fun a => ids.contains a.id) []) = []
    by_cases h : ids = []
    · rw [if_pos h]
    · rw [if_neg h]
      rfl

theorem exceptOk_bind {α β : Type} (a : α) (f : α → Except DomErr β) :
    (Except.ok a : Except DomErr α) >>= f = f a := rfl

/-- C1.  Whenever the aggregation over the included accounts completes (no
currency error), `TrialBalance.compute` raises `CalculationError` exactly
when the aggregated grand total debit differs from the grand total credit; it
never returns a result on a mismatch, and any returned result has
`total_debit = total_credit`. -/
theorem trialBalance_calculationError_iff (allAccounts : List ChartAccount)
    (journals : List JournalRec) (accountIds : Option (List Nat))
    (asOf : Option Nat) (a0 : ChartAccount) (rest : List ChartAccount)
    (totals : AccTotals) (gd gc : Money)
    (hfil : filterAccounts allAccounts accountIds = a0 :: rest)
    (htot : aggregateTotals (a0 :: rest) journals asOf = .ok totals)
    (hgrand : grandTotals (a0 :: rest) totals a0.currencyCode = .ok (gd, gc)) :
    ((∃ msg, trialBalanceCompute allAccounts journals accountIds asOf =
        .error (.calculationError msg)) ↔ gd.amount ≠ gc.amount)
    ∧ (∀ r, trialBalanceCompute allAccounts journals accountIds asOf = .ok r →
        r.totalDebit = r.totalCredit) := by
  have hne : allAccounts ≠ [] := by
    intro h
    subst h
    rw [filterAccounts_nil] at hfil
    exact List.noConfusion hfil
  have hred : trialBalanceCompute allAccounts journals accountIds asOf =
      if gd.amount ≠ gc.amount then
        .error (.calculationError "Trial balance does not balance")
      else
        .ok { currency := a0.currencyCode
              items := (a0 :: rest).map (fun a =>
                { accountId := a.id
                  accountName := a.name
                  accountType := a.accountType
                  currency := a.currencyCode
                  debit := (dictGet totals a.id).1.amount
                  credit := (dictGet totals a.id).2.amount })
              totalDebit := gd.amount
              totalCredit := gc.amount } := by
    unfold trialBalanceCompute
    rw [if_neg hne, hfil]
    simp only [htot, hgrand, exceptOk_bind]
  by_cases hneq : gd.amount = gc.amount
  · have hnn : ¬(gd.amount ≠ gc.amount) := fun h => h hneq
    rw [hred, if_neg hnn]
    constructor
    · exact ⟨fun ⟨msg, h⟩ => Except.noConfusion h, fun h => absurd hneq h⟩
    · intro r hr
      injection hr with hr
      rw [← hr]
      exact hneq
  · rw [hred, if_pos hneq]
    exact ⟨⟨fun _ => hneq, fun _ => ⟨_, rfl⟩⟩, fun r hr => Except.noConfusion hr⟩

/-- Witness for C1: with only the debit-side account included, a 100 USD
posting leaves grand debit 100 against grand credit 0 and the computation
raises `CalculationError`; with both accounts included, any returned report
has equal totals. -/
theorem trialBalance_calculationError_iff_witness :
    (∃ msg, trialBalanceCompute [⟨1, "Cash", "ASSET", "USD"⟩]
        [⟨[⟨1, 2, ⟨100, "USD"⟩, 5⟩]⟩] none none = .error (.calculationError msg))
    ∧ (∀ r, trialBalanceCompute
        [⟨1, "Cash", "ASSET", "USD"⟩, ⟨2, "Loans", "ASSET", "USD"⟩]
        [⟨[⟨1, 2, ⟨100, "USD"⟩, 5⟩]⟩] none none = .ok r →
        r.totalDebit = r.totalCredit) := by
  constructor
  · exact (trialBalance_calculationError_iff [⟨1, "Cash", "ASSET", "USD"⟩]
      [⟨[⟨1, 2, ⟨100, "USD"⟩, 5⟩]⟩] none none ⟨1, "Cash", "ASSET", "USD"⟩ [] _ _ _
      rfl rfl rfl).1.mpr (by norm_num [dictGet])
  · exact (trialBalance_calculationError_iff
      [⟨1, "Cash", "ASSET", "USD"⟩, ⟨2, "Loans", "ASSET", "USD"⟩]
      [⟨[⟨1, 2, ⟨100, "USD"⟩, 5⟩]⟩] none none ⟨1, "Cash", "ASSET", "USD"⟩
      [⟨2, "Loans", "ASSET", "USD"⟩] _ _ _ rfl rfl rfl).2

/-! ## Claim C7: amortization schedule

From `Middleware/DataProvider/LoanProvider/scheduleProvider.py`
(`ScheduleProvider._calculate_installments`).  The source computes with
Python floats and `round(x, 2)` (round-half-even); the embedding computes
with exact rationals and an exact round-half-even to two decimals. -/

/-- Round to the nearest integer, ties to the even integer (Python's
`round`). -/
def roundHalfEven (q : ℚ) : ℤ :=
  if q - ⌊q⌋ < 1 / 2 then ⌊q⌋
  else if 1 / 2 < q - ⌊q⌋ then ⌊q⌋ + 1
  else if ⌊q⌋ % 2 = 0 then ⌊q⌋ else ⌊q⌋ + 1

/-- `round(x, 2)`: round-half-even at two decimal places. -/
def round2 (q : ℚ) : ℚ := (roundHalfEven (100 * q) : ℚ) / 100

theorem abs_roundHalfEven_sub (q : ℚ) : |(roundHalfEven q : ℚ) - q| ≤ 1 / 2 := by
  have h0 : (⌊q⌋ : ℚ) ≤ q := Int.floor_le q
  have h1 : q < ⌊q⌋ + 1 := Int.lt_floor_add_one q
  unfold roundHalfEven
  split_ifs with hf1 hf2 hev
  · rw [abs_le]
    constructor <;> linarith
  · rw [abs_le]
    push_cast
    constructor <;> linarith
  · rw [abs_le]
    constructor <;> linarith
  · rw [abs_le]
    push_cast
    constructor <;> linarith

theorem abs_round2_sub (q : ℚ) : |round2 q - q| ≤ 1 / 200 := by
  have h := abs_roundHalfEven_sub (100 * q)
  have heq : round2 q - q = ((roundHalfEven (100 * q) : ℚ) - 100 * q) / 100 := by
    unfold round2
    ring
  rw [heq, abs_div]
  have h100 : |(100 : ℚ)| = 100 := by norm_num
  rw [h100]
  linarith

/-- One generated installment (`LoanSchedule` row data as
`_calculate_installments` emits it); `dueMonth` counts months after
`start_date` (the due date advances by one calendar month per row). -/
structure Installment where
  installmentNumber : Nat
  dueMonth : Nat
  principalDue : ℚ
  interestDue : ℚ
  totalDue : ℚ
deriving DecidableEq, Repr

/-- The installment loop: for each row, interest on the remaining principal,
principal as the payment minus interest, all three outputs rounded to two
decimals, and the UNROUNDED principal deducted from the remaining balance. -/
def buildInstallments (monthlyRate monthlyPayment : ℚ) :
    ℚ → Nat → Nat → Nat → List Installment
  | _, _, _, 0 => []
  | rem, num, month, c + 1 =>
    let interestDue := rem * monthlyRate
    let principalDue := monthlyPayment - interestDue
    { installmentNumber := num
      dueMonth := month
      principalDue := round2 principalDue
      interestDue := round2 interestDue
      totalDue := round2 monthlyPayment } ::
      buildInstallments monthlyRate monthlyPayment (rem - principalDue)
        (num + 1) (month + 1) c

/-- `ScheduleProvider._calculate_installments`: monthly rate `r/100/12`,
annuity payment (or `P/n` at zero rate), then the installment loop from the
full principal, numbering from 1. -/
def calculateInstallments (principal annualRate : ℚ) (termMonths : Nat) :
    List Installment :=
  let monthlyRate := annualRate / 100 / 12
  let monthlyPayment :=
    if monthlyRate = 0 then principal / (termMonths : ℚ)
    else
      let numerator := monthlyRate * (1 + monthlyRate) ^ termMonths
      let denominator := (1 + monthlyRate) ^ termMonths - 1
      principal * (numerator / denominator)
  buildInstallments monthlyRate monthlyPayment principal 1 0 termMonths

/-- Remaining principal after `c` loop iterations (tracking the unrounded
deduction `rem -= principal_due`). -/
def remAfter (monthlyRate monthlyPayment : ℚ) : ℚ → Nat → ℚ
  | rem, 0 => rem
  | rem, c + 1 =>
    remAfter monthlyRate monthlyPayment
      (rem - (monthlyPayment - rem * monthlyRate)) c

/-- The unrounded principal deductions telescope, so the sum of the ROUNDED
`principal_due` over `c` rows stays within `c`·(1/200) of the principal
actually amortized (`rem - remAfter`). -/
theorem buildInstallments_principal_sum (monthlyRate monthlyPayment : ℚ)
    (c : Nat) : ∀ rem num month,
    |(((buildInstallments monthlyRate monthlyPayment rem num month c).map
        (·.principalDue)).sum) - (rem - remAfter monthlyRate monthlyPayment rem c)|
      ≤ c * (1 / 200) := by
  induction c with
  | zero =>
    intro rem num month
    simp [buildInstallments, remAfter]
  | succ c ih =>
    intro rem num month
    have h1 := abs_round2_sub (monthlyPayment - rem * monthlyRate)
    have h2 := ih (rem - (monthlyPayment - rem * monthlyRate)) (num + 1) (month + 1)
    simp only [buildInstallments, List.map_cons, List.sum_cons, remAfter]
    have key : round2 (monthlyPayment - rem * monthlyRate)
          + ((buildInstallments monthlyRate monthlyPayment
              (rem - (monthlyPayment - rem * monthlyRate)) (num + 1) (month + 1) c).map
              (·.principalDue)).sum
          - (rem - remAfter monthlyRate monthlyPayment
              (rem - (monthlyPayment - rem * monthlyRate)) c)
        = (round2 (monthlyPayment - rem * monthlyRate)
            - (monthlyPayment - rem * monthlyRate))
          + (((buildInstallments monthlyRate monthlyPayment
              (rem - (monthlyPayment - rem * monthlyRate)) (num + 1) (month + 1) c).map
              (·.principalDue)).sum
            - ((rem - (monthlyPayment - rem * monthlyRate))
              - remAfter monthlyRate monthlyPayment
                  (rem - (monthlyPayment - rem * monthlyRate)) c)) := by
      ring
    rw [key]
    have h3 := abs_add
      (round2 (monthlyPayment - rem * monthlyRate)
        - (monthlyPayment - rem * monthlyRate))
      (((buildInstallments monthlyRate monthlyPayment
          (rem - (monthlyPayment - rem * monthlyRate)) (num + 1) (month + 1) c).map
          (·.principalDue)).sum
        - ((rem - (monthlyPayment - rem * monthlyRate))
          - remAfter monthlyRate monthlyPayment
              (rem - (monthlyPayment - rem * monthlyRate)) c))
    have h4 : (1 : ℚ) / 200 + (c : ℚ) * (1 / 200) = ((c + 1 : Nat) : ℚ) * (1 / 200) := by
      push_cast
      ring
    exact le_trans h3 (le_trans (add_le_add h1 h2) (le_of_eq h4))

/-- At rate zero each iteration deducts the flat payment. -/
theorem remAfter_zero_rate (monthlyPayment : ℚ) (c : Nat) : ∀ rem,
    remAfter 0 monthlyPayment rem c = rem - c * monthlyPayment := by
  induction c with
  | zero =>
    intro rem
    simp [remAfter]
  | succ c ih =>
    intro rem
    rw [remAfter, ih]
    push_cast
    ring

/-- Closed form of the remaining principal at a nonzero rate. -/
theorem remAfter_closed (monthlyRate monthlyPayment : ℚ)
    (hm : monthlyRate ≠ 0) (c : Nat) : ∀ rem,
    remAfter monthlyRate monthlyPayment rem c
      = rem * (1 + monthlyRate) ^ c
        - monthlyPayment * ((1 + monthlyRate) ^ c - 1) / monthlyRate := by
  induction c with
  | zero =>
    intro rem
    simp [remAfter]
  | succ c ih =>
    intro rem
    rw [remAfter, ih]
    field_simp
    ring

/-- With the annuity payment, the remaining principal after `n` iterations is
exactly zero (in exact arithmetic). -/
theorem remAfter_annuity (P monthlyRate : ℚ) (n : Nat) (hm : monthlyRate ≠ 0)
    (hd : (1 + monthlyRate) ^ n - 1 ≠ 0) :
    remAfter monthlyRate
      (P * ((monthlyRate * (1 + monthlyRate) ^ n) / ((1 + monthlyRate) ^ n - 1)))
      P n = 0 := by
  rw [remAfter_closed _ _ hm]
  field_simp
  ring

/-- Every emitted row's `total_due` is the rounded payment. -/
theorem buildInstallments_totalDue (monthlyRate monthlyPayment : ℚ) (c : Nat) :
    ∀ rem num month inst,
    inst ∈ buildInstallments monthlyRate monthlyPayment rem num month c →
    inst.totalDue = round2 monthlyPayment := by
  induction c with
  | zero =>
    intro rem num month inst hinst
    simp [buildInstallments] at hinst
  | succ c ih =>
    intro rem num month inst hinst
    rw [buildInstallments] at hinst
    rcases List.mem_cons.mp hinst with h | h
    · rw [h]
    · exact ih _ _ _ _ h

/-- C7 amended.  For principal P, annual rate r ≥ 0 (the loan schema bounds
the rate to [0, 100]) and term n ≥ 1: the generated `principal_due` values
sum to P within n·(1/200) ≤ n·0.01 — in exact arithmetic the unrounded
deductions amortize P exactly, and each of the n roundings moves the sum by
at most half a cent; and at rate zero every installment's `total_due` is
`round(P/n, 2)` — P/n rounded to two decimals, not P/n itself. -/
theorem calculateInstallments_amended (P r : ℚ) (n : Nat) (hn : 0 < n)
    (hr : 0 ≤ r) :
    |(((calculateInstallments P r n).map (·.principalDue)).sum) - P|
        ≤ (n : ℚ) * (1 / 100)
    ∧ (r = 0 → ∀ inst ∈ calculateInstallments P r n,
        inst.totalDue = round2 (P / (n : ℚ))) := by
  constructor
  · simp only [calculateInstallments]
    by_cases h0 : r / 100 / 12 = 0
    · rw [if_pos h0]
      have hncast : ((n : ℚ)) ≠ 0 := by
        exact_mod_cast hn.ne'
      have hP : remAfter (r / 100 / 12) (P / (n : ℚ)) P n = 0 := by
        rw [h0, remAfter_zero_rate]
        field_simp
      have hb := buildInstallments_principal_sum (r / 100 / 12) (P / (n : ℚ)) n P 1 0
      rw [hP, sub_zero] at hb
      exact le_trans hb (mul_le_mul_of_nonneg_left (by norm_num) (Nat.cast_nonneg n))
    · rw [if_neg h0]
      have hone : 1 < (1 + r / 100 / 12) ^ n := by
        have hm : 0 < r / 100 / 12 := by
          rcases lt_or_eq_of_le hr with h | h
          · positivity
          · exact absurd (by rw [← h]; norm_num) h0
        exact one_lt_pow₀ (by linarith) hn.ne'
      have hd : (1 + r / 100 / 12) ^ n - 1 ≠ 0 := sub_ne_zero.mpr (ne_of_gt hone)
      have hP := remAfter_annuity P (r / 100 / 12) n h0 hd
      have hb := buildInstallments_principal_sum (r / 100 / 12)
        (P * (((r / 100 / 12) * (1 + r / 100 / 12) ^ n)
          / ((1 + r / 100 / 12) ^ n - 1))) n P 1 0
      rw [hP, sub_zero] at hb
      exact le_trans hb (mul_le_mul_of_nonneg_left (by norm_num) (Nat.cast_nonneg n))
  · intro hr0 inst hinst
    have hm0 : r / 100 / 12 = 0 := by rw [hr0]; norm_num
    simp only [calculateInstallments, hm0, if_pos rfl] at hinst
    exact buildInstallments_totalDue 0 (P / (n : ℚ)) n P 1 0 inst hinst

theorem round2_oneThird : round2 ((100 : ℚ) / 3) = 3333 / 100 := by
  have h1 : (100 : ℚ) * (100 / 3) = 10000 / 3 := by norm_num
  have hf : ⌊(10000 / 3 : ℚ)⌋ = 3333 := by
    rw [Int.floor_eq_iff]
    constructor <;> norm_num
  unfold round2 roundHalfEven
  rw [h1, hf, if_pos (by norm_num)]
  norm_num

/-- Counterexample to C7 as stated: for P = 100, r = 0, n = 3 the first
installment's `total_due` is `round(100/3, 2) = 33.33`, which is not
`P/n = 100/3`. -/
theorem calculateInstallments_total_counterexample :
    ((calculateInstallments 100 0 3).map (·.totalDue)).head? = some (3333 / 100)
      ∧ ((3333 : ℚ) / 100) ≠ (100 : ℚ) / ((3 : Nat) : ℚ) := by
  constructor
  · simp only [calculateInstallments]
    rw [show (0 : ℚ) / 100 / 12 = 0 from by norm_num, if_pos rfl]
    have hhead : ((buildInstallments (0 : ℚ) ((100 : ℚ) / ((3 : Nat) : ℚ))
        100 1 0 3).map (·.totalDue)).head?
        = some (round2 ((100 : ℚ) / ((3 : Nat) : ℚ))) := rfl
    rw [hhead, show (100 : ℚ) / ((3 : Nat) : ℚ) = 100 / 3 from by norm_num,
      round2_oneThird]
  · intro h
    rw [show ((3 : Nat) : ℚ) = 3 from by norm_num] at h
    norm_num at h

/-- Witness for the amended C7 at P = 100, r = 0, n = 3: the rounded
principals sum to 99.99, within the 0.03 tolerance. -/
theorem calculateInstallments_amended_witness :
    |(((calculateInstallments 100 0 3).map (·.principalDue)).sum) - 100|
      ≤ ((3 : Nat) : ℚ) * (1 / 100) :=
  (calculateInstallments_amended 100 0 3 (by norm_num) (by norm_num)).1
